import Mathlib

/-!
Shallow embedding of the `httpwr` Go package (`httpwr.go`): a thin adapter
layer that lets HTTP handlers return errors, plus a status-carrying error
type, JSON envelope writers and an adapting combinator.

Go error values are modelled by the inductive `GoErr`.  Go compares basic
errors (`errors.New` / `fmt.Errorf`) by pointer identity, so each basic
error carries a numeric `id` standing for its allocation identity; two
independently created errors get distinct ids, and structural equality of
the model coincides with Go's `==` on error interface values.  The struct
`httpwr.Error{Status, Err}` has an `error`-interface field `Err` that may
be nil; the two cases are the constructors `herr` (non-nil `Err`) and
`herrNil` (nil `Err`).
-/

set_option autoImplicit false

namespace Httpwr

/-- Go error values reachable in this package.
`base id msg` models an error created by `errors.New`/`fmt.Errorf` without
a `%w` verb (no `Unwrap` method, identity `id`);
`wrapped id msg inner` models a `fmt.Errorf` error with a `%w` verb
(its `Unwrap` returns `inner`);
`herr status cause` and `herrNil status` model the struct
`httpwr.Error{Status, Err}` with non-nil and nil `Err` field respectively.
`Error` defines `Is` but no `Unwrap`. -/
inductive GoErr where
  | base (id : Nat) (msg : String)
  | wrapped (id : Nat) (msg : String) (inner : GoErr)
  | herr (status : Int) (cause : GoErr)
  | herrNil (status : Int)
deriving DecidableEq, Repr

/-- Dynamic-type test `err.(type) == httpwr.Error`: the `case Error:` arm
of the type switch in `httpwr.Error.Is`. -/
def herrKind : GoErr → Bool
  | .herr _ _ => true
  | .herrNil _ => true
  | _ => false

/-- Display text of an error: Go's `err.Error()`.  `none` models a panic:
`httpwr.Error.Error()` (httpwr.go lines 34-36) returns `e.Err.Error()`,
which is a nil-pointer panic when the `Err` field is the nil interface. -/
def errString : GoErr → Option String
  | .base _ m => some m
  | .wrapped _ m _ => some m
  | .herr _ c => errString c
  | .herrNil _ => none

/-- Go's `errors.Is(e, t)` specialised to the dynamic types occurring in
this package: test `e == t`; then, if `e`'s dynamic type has an `Is`
method (only `httpwr.Error` does), call it — for `httpwr.Error` that is
`true` when `t` is of the `Error` kind, else `errors.Is(e.Err, t)`, which
is `false` when `e.Err` is nil; then follow `Unwrap` (only
`fmt.Errorf`-with-`%w` errors have one; `httpwr.Error` has no `Unwrap`,
so the loop stops there). -/
def goIs (e t : GoErr) : Bool :=
  if e = t then true
  else match e with
    | .herr _ c => herrKind t || goIs c t
    | .herrNil _ => herrKind t
    | .wrapped _ _ inner => goIs inner t
    | .base _ _ => false

/-- The method `httpwr.Error.Is` (httpwr.go lines 39-46) of a receiver
whose `Err` field is `cause` (`none` for the nil interface): `true`
unconditionally when the target's dynamic type is `httpwr.Error`,
otherwise `errors.Is(e.Err, target)`; `errors.Is(nil, t)` is `false` for
every non-nil `t`. -/
def errorIs (cause : Option GoErr) (t : GoErr) : Bool :=
  if herrKind t then true
  else match cause with
    | some c => goIs c t
    | none => false

/-- Go's `errors.As(err, &herr)` for target type `httpwr.Error`
(httpwr.go line 146): walk the unwrap chain from the outside in and return
the `Status` and `Err` fields of the first value whose dynamic type is
`httpwr.Error`.  `httpwr.Error` itself has no `Unwrap` method, so its
cause chain is not entered. -/
def errorsAsError : GoErr → Option (Int × Option GoErr)
  | .herr s c => some (s, some c)
  | .herrNil s => some (s, none)
  | .wrapped _ _ inner => errorsAsError inner
  | .base _ _ => none

/-- The unwrap chain of an error as seen by `errors.As`: the error itself,
then repeatedly what `Unwrap` returns. -/
def chain : GoErr → List GoErr
  | .base i m => [.base i m]
  | .wrapped i m inner => .wrapped i m inner :: chain inner
  | .herr s c => [.herr s c]
  | .herrNil s => [.herrNil s]

/-- Projection used to state that `errors.As` picks the first
status-carrying error of the chain. -/
def asHErr : GoErr → Option (Int × Option GoErr)
  | .herr s c => some (s, some c)
  | .herrNil s => some (s, none)
  | _ => none

/-- The function `httpwr.Wrap` (httpwr.go lines 50-59): `nil` in, `nil`
out; otherwise pack the error together with the status. -/
def Wrap (status : Int) (err : Option GoErr) : Option GoErr :=
  match err with
  | none => none
  | some e => some (.herr status e)

/-- One `fmt` format argument (the verbs used with `httpwr.Errorf`). -/
inductive FmtArg where
  | int (n : Int)
  | str (s : String)
deriving DecidableEq, Repr

/-- Character-level model of `fmt.Sprintf` restricted to the `%d`, `%s`
and `%%` verbs (a `%w` verb would change the dynamic type of the
constructed error and is not modelled). -/
def goFormatAux : List Char → List FmtArg → List Char
  | [], _ => []
  | '%' :: 'd' :: rest, .int n :: args => (toString n).toList ++ goFormatAux rest args
  | '%' :: 's' :: rest, .str s :: args => s.toList ++ goFormatAux rest args
  | '%' :: '%' :: rest, args => '%' :: goFormatAux rest args
  | c :: rest, args => c :: goFormatAux rest args

/-- The formatted message produced by `fmt.Errorf(format, args...)`. -/
def goFormat (format : String) (args : List FmtArg) : String :=
  String.mk (goFormatAux format.toList args)

/-- The function `httpwr.Errorf` (httpwr.go lines 62-64):
`Wrap(status, fmt.Errorf(format, args...))`.  The `id` argument stands for
the identity of the freshly allocated `fmt.Errorf` error. -/
def Errorf (id : Nat) (status : Int) (format : String) (args : List FmtArg) :
    Option GoErr :=
  Wrap status (some (.base id (goFormat format args)))

/-! ## Response writer

Model of the external `http.ResponseWriter` collaborator together with the
`httptest.ResponseRecorder` observation of it, following the documented
`net/http` contract: `Header()` exposes a mutable header map; the first
`WriteHeader(code)` fixes the status code and sends the headers as they
stand at that moment (later changes to the map have no effect on the
transmitted response); `Write` implies `WriteHeader(200)` when no status
was written yet and appends to the body; the observed status defaults to
200 when the handler wrote nothing. -/

/-- Header map plus the wire-visible snapshot taken at `WriteHeader`
time (`sentHeader`), the written status, and the accumulated body. -/
structure ResponseWriter where
  header : List (String × String)
  wroteStatus : Option Int
  sentHeader : List (String × String)
  body : String
deriving DecidableEq, Repr

/-- A fresh recorder: no headers, no status, empty body. -/
def newRecorder : ResponseWriter :=
  { header := [], wroteStatus := none, sentHeader := [], body := "" }

/-- Replace the value of key `k`, or append the pair when absent. -/
def setAssoc (k v : String) : List (String × String) → List (String × String)
  | [] => [(k, v)]
  | (k', v') :: rest => if k' = k then (k, v) :: rest else (k', v') :: setAssoc k v rest

/-- Look up a header value. -/
def getAssoc (k : String) : List (String × String) → Option String
  | [] => none
  | (k', v') :: rest => if k' = k then some v' else getAssoc k rest

/-- `w.Header().Set(k, v)`: mutates the live header map; whether the
change reaches the wire depends on `WriteHeader` not having run yet. -/
def headerSet (w : ResponseWriter) (k v : String) : ResponseWriter :=
  { w with header := setAssoc k v w.header }

/-- `w.WriteHeader(code)`: the first call fixes the status and snapshots
the header map onto the wire; superfluous later calls are ignored. -/
def writeHeader (w : ResponseWriter) (code : Int) : ResponseWriter :=
  match w.wroteStatus with
  | some _ => w
  | none => { w with wroteStatus := some code, sentHeader := w.header }

/-- `w.Write(bytes)`: an implicit `WriteHeader(200)` when no status is
written yet, then append to the body. -/
def writeBody (w : ResponseWriter) (s : String) : ResponseWriter :=
  let w' := writeHeader w 200
  { w' with body := w'.body ++ s }

/-- Status code observed by the client (`httptest` result): the written
status, defaulting to 200. -/
def resultStatus (w : ResponseWriter) : Int :=
  (w.wroteStatus).getD 200

/-! ## JSON encoding

The spec treats JSON serialization as a black-box encode-to-bytes
capability.  `encoding/json` is modelled concretely: struct fields are
emitted in declaration order, map keys are sorted, strings are quoted with
the escapes `encoding/json` uses (including its default HTML escaping of
`<`, `>` and `&`), and `Encoder.Encode` appends a newline and writes
nothing at all when marshalling fails. -/

/-- Escape one character the way `encoding/json` does with the default
HTML escaping. -/
def jsonEscapeChar (c : Char) : List Char :=
  if c = '"' then ['\\', '"']
  else if c = '\\' then ['\\', '\\']
  else if c = '\n' then ['\\', 'n']
  else if c = '\r' then ['\\', 'r']
  else if c = '\t' then ['\\', 't']
  else if c = '<' then "\\u003c".toList
  else if c = '>' then "\\u003e".toList
  else if c = '&' then "\\u0026".toList
  else if c.toNat < 32 then
    "\\u00".toList ++ [(Nat.digitChar (c.toNat / 16)), (Nat.digitChar (c.toNat % 16))]
  else [c]

/-- JSON string literal for `s`. -/
def jsonQuote (s : String) : String :=
  "\"" ++ String.mk (s.toList.flatMap jsonEscapeChar) ++ "\""

/-- A Go value as it can appear in the open `data` map (`httpwr.M`,
`map[string]any`).  `unsupported` stands for a value `encoding/json`
cannot marshal (a channel, a function, ...). -/
inductive GoValue where
  | vstr (s : String)
  | vint (n : Int)
  | vbool (b : Bool)
  | vnull
  | vmap (fields : List (String × GoValue))
  | unsupported

/-- Insert one key into a key-sorted pair list (`encoding/json` emits map
keys in sorted order). -/
def insertPair (p : String × String) : List (String × String) → List (String × String)
  | [] => [p]
  | q :: rest => if p.1 < q.1 then p :: q :: rest else q :: insertPair p rest

/-- Sort marshalled fields by key. -/
def sortPairs : List (String × String) → List (String × String)
  | [] => []
  | p :: rest => insertPair p (sortPairs rest)

/-- Join marshalled fields into a comma-separated object body. -/
def joinFields : List (String × String) → String
  | [] => ""
  | [(k, mv)] => jsonQuote k ++ ":" ++ mv
  | (k, mv) :: p :: rest => jsonQuote k ++ ":" ++ mv ++ "," ++ joinFields (p :: rest)

mutual

/-- `json.Marshal` of a `GoValue`; `none` models a marshalling error,
which aborts the whole encode. -/
def marshalValue : GoValue → Option String
  | .vstr s => some (jsonQuote s)
  | .vint n => some (toString n)
  | .vbool b => some (if b then "true" else "false")
  | .vnull => some "null"
  | .vmap fields => do
      let items ← marshalFields fields
      pure ("\x7b" ++ joinFields (sortPairs items) ++ "\x7d")
  | .unsupported => none

/-- Marshal every field value, keeping the keys. -/
def marshalFields : List (String × GoValue) → Option (List (String × String))
  | [] => some []
  | (k, v) :: rest => do
      let mv ← marshalValue v
      let mrest ← marshalFields rest
      pure ((k, mv) :: mrest)

end

/-! ## Response writers and the adapting combinator -/

/-- An HTTP request; the package passes it through unexamined. -/
structure Req where
  method : String
  path : String
deriving DecidableEq, Repr

/-- The fallible-handler contract `httpwr.Handler` / `httpwr.HandlerFunc`
(httpwr.go lines 68-78): `ServeHTTP` may mutate the response writer and
may return an error.  Mutation is modelled by state passing. -/
abbrev Handler := ResponseWriter → Req → ResponseWriter × Option GoErr

/-- The error-handling policy `httpwr.ErrorHandler` (httpwr.go line 81):
`func(w http.ResponseWriter, status int, err error)`.  The `error`
argument may be the nil interface, hence `Option GoErr`. -/
abbrev ErrorHandler := ResponseWriter → Int → Option GoErr → ResponseWriter

/-- JSON envelope written by `httpwr.OK`: the anonymous struct
`r{Status int; Msg string}` with tags `status`, `msg`, in declaration
order, followed by the newline `json.Encoder.Encode` appends. -/
def encodeOKBody (status : Int) (msg : String) : String :=
  "\x7b\"status\":" ++ toString status ++ ",\"msg\":" ++ jsonQuote msg ++ "\x7d\n"

/-- The function `httpwr.OK` (httpwr.go lines 98-113): write the status,
set the content-type header, encode `{status, msg}` onto the body, return
nil.  Marshalling an int and a string cannot fail. -/
def OK (w : ResponseWriter) (status : Int) (msg : String) :
    ResponseWriter × Option GoErr :=
  let w1 := writeHeader w status
  let w2 := headerSet w1 "Content-Type" "application/json"
  (writeBody w2 (encodeOKBody status msg), none)

/-- JSON envelope written by `httpwr.OKWithData` when the `data` map
marshals to `d`. -/
def encodeOKDataBody (status : Int) (msg : String) (d : String) : String :=
  "\x7b\"status\":" ++ toString status ++ ",\"msg\":" ++ jsonQuote msg ++
    ",\"data\":" ++ d ++ "\x7d\n"

/-- The function `httpwr.OKWithData` (httpwr.go lines 117-134): like `OK`
with an extra `data` field.  When marshalling the envelope fails (the
`data` map holds an unsupported value), `json.Encoder.Encode` writes
nothing and its error is discarded by `_ =`; the function still returns
nil. -/
def OKWithData (w : ResponseWriter) (status : Int) (msg : String)
    (data : List (String × GoValue)) : ResponseWriter × Option GoErr :=
  let w1 := writeHeader w status
  let w2 := headerSet w1 "Content-Type" "application/json"
  match marshalValue (.vmap data) with
  | some d => (writeBody w2 (encodeOKDataBody status msg d), none)
  | none => (w2, none)

/-- JSON envelope written by `httpwr.DefaultErrorHandler`: the struct
`errorResponse{Status int; Err string}` with tags `status`, `error`. -/
def encodeErrBody (status : Int) (txt : String) : String :=
  "\x7b\"status\":" ++ toString status ++ ",\"error\":" ++ jsonQuote txt ++ "\x7d\n"

/-- The function `httpwr.DefaultErrorHandler` (httpwr.go lines 85-94):
write the status, set the content-type header, encode
`{status, error: err.Error()}` onto the body.  `none` models the panic
raised by `err.Error()` when `err` is the nil interface or a
status-carrying error whose own cause is nil. -/
def DefaultErrorHandler (w : ResponseWriter) (status : Int) (err : Option GoErr) :
    Option ResponseWriter :=
  let w1 := writeHeader w status
  let w2 := headerSet w1 "Content-Type" "application/json"
  match err with
  | none => none
  | some e =>
    match errString e with
    | none => none
    | some txt => some (writeBody w2 (encodeErrBody status txt))

/-- The combinator `httpwr.NewWithHandler` (httpwr.go lines 138-152):
run the fallible handler; on nil error stop; otherwise classify via
`errors.As` and hand the writer to the policy, with status 500
(`http.StatusInternalServerError`) and the original error when
classification fails. -/
def NewWithHandler (next : Handler) (eh : ErrorHandler) :
    ResponseWriter → Req → ResponseWriter :=
  fun w r =>
    match next w r with
    | (w1, none) => w1
    | (w1, some e) =>
      match errorsAsError e with
      | some (s, c) => eh w1 s c
      | none => eh w1 500 (some e)

/-- The combinator `httpwr.New` (httpwr.go lines 155-157):
`NewWithHandler` with the default policy; `none` models a panic inside
the default policy. -/
def New (next : Handler) (w : ResponseWriter) (r : Req) : Option ResponseWriter :=
  match next w r with
  | (w1, none) => some w1
  | (w1, some e) =>
    match errorsAsError e with
    | some (s, c) => DefaultErrorHandler w1 s c
    | none => DefaultErrorHandler w1 500 (some e)

/-! ## Helper lemmas -/

lemma goIs_refl (e : GoErr) : goIs e e = true := by
  rw [goIs.eq_def]
  simp

lemma herr_ne_cause (s : Int) (e : GoErr) : GoErr.herr s e ≠ e := by
  intro h
  have hlt : sizeOf e < sizeOf (GoErr.herr s e) := by
    simp only [GoErr.herr.sizeOf_spec]
    omega
  rw [h] at hlt
  exact lt_irrefl _ hlt

lemma goIs_herr_target (s : Int) (c t : GoErr) (h : herrKind t = true) :
    goIs (GoErr.herr s c) t = true := by
  rw [goIs.eq_def]
  split
  · rfl
  · simp [h]

lemma errorsAsError_findSome (e : GoErr) :
    errorsAsError e = (chain e).findSome? asHErr := by
  induction e with
  | base i m => simp [errorsAsError, chain, asHErr, List.findSome?]
  | wrapped i m inner ih => simp [errorsAsError, chain, asHErr, List.findSome?, ih]
  | herr s c _ => simp [errorsAsError, chain, asHErr, List.findSome?]
  | herrNil s => simp [errorsAsError, chain, asHErr, List.findSome?]

/-! ## Claims -/

/-- Claim C3: `Wrap(s, nil)` is nil for every status `s`; `Wrap(s, e)`
for non-nil `e` is a status-carrying error with status `s` and cause `e`,
and the chain check `errors.Is(Wrap(s, e), e)` recovers `e`. -/
theorem wrap_spec :
    (∀ s : Int, Wrap s none = none) ∧
    (∀ (s : Int) (e : GoErr),
      Wrap s (some e) = some (.herr s e) ∧ goIs (.herr s e) e = true) := by
  refine ⟨fun _ => rfl, fun s e => ⟨rfl, ?_⟩⟩
  rw [goIs.eq_def]
  simp [herr_ne_cause s e, goIs_refl]

/-- Claim C4: `Error.Is(other)` is true unconditionally when `other` has
the `Error` dynamic type; for any other target it is exactly
`errors.Is(cause, other)`; and classifying `Wrap(s, e1)` against an
unrelated basic error `e2` (distinct identity, neither wraps the other)
fails. -/
theorem errorIs_spec :
    (∀ (c : Option GoErr) (t : GoErr), herrKind t = true → errorIs c t = true) ∧
    (∀ (c t : GoErr), herrKind t = false → errorIs (some c) t = goIs c t) ∧
    (∀ (s : Int) (i1 i2 : Nat) (m1 m2 : String), i1 ≠ i2 →
      goIs (GoErr.herr s (.base i1 m1)) (.base i2 m2) = false) := by
  refine ⟨fun c t h => by simp [errorIs, h], fun c t h => by simp [errorIs, h], ?_⟩
  intro s i1 i2 m1 m2 hne
  rw [goIs.eq_def]
  simp [herrKind]
  rw [goIs.eq_def]
  simp [GoErr.base.injEq, hne]

/-- Claim C4 witness: concrete instances of the three parts. -/
theorem errorIs_spec_witness :
    errorIs (some (.base 1 "EOF")) (.herrNil 0) = true ∧
    errorIs (some (.base 1 "EOF")) (.base 2 "x") = goIs (.base 1 "EOF") (.base 2 "x") ∧
    goIs (GoErr.herr 410 (.base 1 "a")) (.base 2 "a") = false :=
  ⟨errorIs_spec.1 (some (.base 1 "EOF")) (.herrNil 0) (by decide),
   errorIs_spec.2.1 (.base 1 "EOF") (.base 2 "x") (by decide),
   errorIs_spec.2.2 410 1 2 "a" "a" (by decide)⟩

/-- Claim C5: `Errorf(s, format, args...)` is always a populated
status-carrying error with status `s` whose cause's message is the
formatted string; `goFormat "foo bar %d" [10] = "foo bar 10"`; and the
`Errorf 409` value is classified-equal (`errors.Is`) to a status-carrying
error wrapping an error with message `"foo bar 10"` at status 409,
whatever the two allocation identities are. -/
theorem errorf_spec :
    (∀ (id : Nat) (s : Int) (format : String) (args : List FmtArg),
      Errorf id s format args = some (.herr s (.base id (goFormat format args)))) ∧
    goFormat "foo bar %d" [.int 10] = "foo bar 10" ∧
    (∀ id1 id2 : Nat,
      goIs (GoErr.herr 409 (.base id1 (goFormat "foo bar %d" [.int 10])))
        (GoErr.herr 409 (.base id2 "foo bar 10")) = true) := by
  refine ⟨fun _ _ _ _ => rfl, by decide, fun id1 id2 => ?_⟩
  exact goIs_herr_target _ _ _ rfl

/-- Claim C10 counterexample: `Wrap` applied to a raw-constructed
status-carrying error with nil cause produces a value with a non-nil
cause whose `Error()` still panics, contradicting the claimed totality of
`Error()` on every `Wrap`-produced value. -/
theorem wrap_display_counterexample :
    Wrap 500 (some (.herrNil 1)) = some (.herr 500 (.herrNil 1)) ∧
    errString (GoErr.herr 500 (.herrNil 1)) = none :=
  ⟨rfl, rfl⟩

/-- Claim C10 (amended): `Error()` on a raw-constructed value with nil
cause panics; every `Wrap`/`Errorf` value has a non-nil cause; `Errorf`
values have total `Error()`; and a `Wrap`-produced value's `Error()` is
defined exactly when the wrapped error's own `Error()` is defined. -/
theorem error_display_totality :
    (∀ s : Int, errString (.herrNil s) = none) ∧
    (∀ (s : Int) (e : GoErr),
      Wrap s (some e) = some (.herr s e) ∧ errString (.herr s e) = errString e) ∧
    (∀ (id : Nat) (s : Int) (f : String) (a : List FmtArg),
      (Errorf id s f a).bind errString = some (goFormat f a)) :=
  ⟨fun _ => rfl, fun _ _ => ⟨rfl, rfl⟩, fun _ _ _ _ => rfl⟩

/-- Claim C1: when the adapted handler returns a non-nil error, the
policy is invoked with the status and wrapped cause of the first
status-carrying error of the unwrap chain when one exists, and with
status 500 and the original error otherwise; `errorsAsError` is indeed
the first status-carrying match of the chain. -/
theorem newWithHandler_error_policy (next : Handler) (eh : ErrorHandler)
    (w w1 : ResponseWriter) (r : Req) (e : GoErr)
    (h : next w r = (w1, some e)) :
    NewWithHandler next eh w r =
      (match errorsAsError e with
       | some (s, c) => eh w1 s c
       | none => eh w1 500 (some e)) ∧
    errorsAsError e = (chain e).findSome? asHErr := by
  exact ⟨by simp [NewWithHandler, h], errorsAsError_findSome e⟩

/-- Claim C1 witness: a handler failing with a plain error wrapped around
a status-carrying error at status 404. -/
theorem newWithHandler_error_policy_witness :
    NewWithHandler (fun w _ => (w, some (.wrapped 7 "ctx" (.herr 404 (.base 1 "EOF")))))
        (fun w s _ => writeHeader w s) newRecorder ⟨"GET", "/test"⟩ =
      writeHeader newRecorder 404 ∧
    errorsAsError (.wrapped 7 "ctx" (.herr 404 (.base 1 "EOF"))) =
      (chain (.wrapped 7 "ctx" (.herr 404 (.base 1 "EOF")))).findSome? asHErr := by
  have h := newWithHandler_error_policy
    (fun w _ => (w, some (.wrapped 7 "ctx" (.herr 404 (.base 1 "EOF")))))
    (fun w s _ => writeHeader w s) newRecorder newRecorder ⟨"GET", "/test"⟩
    (.wrapped 7 "ctx" (.herr 404 (.base 1 "EOF"))) rfl
  simpa [errorsAsError] using h

/-- Claim C7: when the adapted handler returns nil, the combinator leaves
the response writer exactly as the handler produced it and the policy is
not consulted (the result does not depend on `eh`); on a fresh recorder a
handler that writes nothing yields observed status 200. -/
theorem newWithHandler_nil_passthrough (next : Handler) (eh : ErrorHandler)
    (w w1 : ResponseWriter) (r : Req)
    (h : next w r = (w1, none)) :
    NewWithHandler next eh w r = w1 ∧
    resultStatus (NewWithHandler (fun w' _ => (w', none)) eh newRecorder r) = 200 := by
  constructor
  · simp [NewWithHandler, h]
  · simp [NewWithHandler, resultStatus, newRecorder]

/-- Claim C7 witness: the do-nothing handler on a fresh recorder. -/
theorem newWithHandler_nil_passthrough_witness :
    NewWithHandler (fun w' _ => (w', none)) (fun w' s _ => writeHeader w' s)
      newRecorder ⟨"GET", "/test"⟩ = newRecorder ∧
    resultStatus (NewWithHandler (fun w' _ => (w', none))
      (fun w' s _ => writeHeader w' s) newRecorder ⟨"GET", "/test"⟩) = 200 :=
  newWithHandler_nil_passthrough (fun w' _ => (w', none))
    (fun w' s _ => writeHeader w' s) newRecorder newRecorder ⟨"GET", "/test"⟩ rfl

/-- Claim C8: on the error path the combinator's whole output is a single
application of the policy to the writer exactly as the handler left it
(so the policy runs exactly once and the combinator writes nothing before
handing over), and with a policy that writes nothing the response is
exactly the handler's — the combinator itself never writes. -/
theorem newWithHandler_policy_once (next : Handler) (eh : ErrorHandler)
    (w w1 : ResponseWriter) (r : Req) (e : GoErr)
    (h : next w r = (w1, some e)) :
    (∃ s c, NewWithHandler next eh w r = eh w1 s c) ∧
    NewWithHandler next (fun w' _ _ => w') w r = w1 := by
  refine ⟨?_, by cases he : errorsAsError e <;> simp [NewWithHandler, h, he]⟩
  cases he : errorsAsError e with
  | none => exact ⟨500, some e, by simp [NewWithHandler, h, he]⟩
  | some p => exact ⟨p.1, p.2, by simp [NewWithHandler, h, he]⟩

/-- Claim C8 witness: a handler failing with a plain error. -/
theorem newWithHandler_policy_once_witness :
    (∃ (s : Int) (c : Option GoErr),
      NewWithHandler (fun w' _ => (w', some (.base 3 "boom")))
        (fun w' s _ => writeHeader w' s) newRecorder ⟨"GET", "/test"⟩ =
        (fun w'' s' (_ : Option GoErr) => writeHeader w'' s') newRecorder s c) ∧
    NewWithHandler (fun w' _ => (w', some (.base 3 "boom")))
      (fun w' _ _ => w') newRecorder ⟨"GET", "/test"⟩ = newRecorder := by
  have h := newWithHandler_policy_once (fun w' _ => (w', some (.base 3 "boom")))
    (fun w' s _ => writeHeader w' s) newRecorder newRecorder ⟨"GET", "/test"⟩
    (.base 3 "boom") rfl
  exact ⟨⟨h.1.choose, h.1.choose_spec.choose, h.1.choose_spec.choose_spec⟩, h.2⟩

/-- Claim C2: on each writing path the code calls `WriteHeader(status)`
before `Header().Set("Content-Type", ...)`, so the live header map ends
up holding `application/json` but the headers transmitted with the
response (snapshotted at `WriteHeader` time) do not contain it, on a
fresh recorder, for `OK`, `OKWithData` and `DefaultErrorHandler` alike. -/
theorem contentType_not_transmitted :
    getAssoc "Content-Type" (OK newRecorder 200 "some msg").1.sentHeader = none ∧
    getAssoc "Content-Type" (OK newRecorder 200 "some msg").1.header =
      some "application/json" ∧
    getAssoc "Content-Type"
      (OKWithData newRecorder 200 "some msg" [("age", .vint 23)]).1.sentHeader = none ∧
    (DefaultErrorHandler newRecorder 400 (some (.base 1 "data was wrong"))).map
      (fun w => getAssoc "Content-Type" w.sentHeader) = some none ∧
    (DefaultErrorHandler newRecorder 400 (some (.base 1 "data was wrong"))).map
      (fun w => getAssoc "Content-Type" w.header) = some (some "application/json") :=
  ⟨rfl, rfl, rfl, rfl, rfl⟩

/-- Claim C6: on a fresh writer, `OK` appends exactly the envelope
`{"status": s, "msg": m}` (plus the encoder's newline), `OKWithData`
appends `{"status": s, "msg": m, "data": d}` when the data map marshals
to `d`, the default policy appends `{"status": s, "error": txt}` where
`txt` is the error's display text, and in each case the status written on
the status line equals the `s` serialized in the body. -/
theorem envelope_bodies (w : ResponseWriter) (s : Int) (m txt d : String)
    (data : List (String × GoValue)) (e : GoErr)
    (hw : w.wroteStatus = none)
    (hd : marshalValue (.vmap data) = some d)
    (he : errString e = some txt) :
    ((OK w s m).1.body = w.body ++ encodeOKBody s m ∧
      resultStatus (OK w s m).1 = s) ∧
    ((OKWithData w s m data).1.body = w.body ++ encodeOKDataBody s m d ∧
      resultStatus (OKWithData w s m data).1 = s) ∧
    ((DefaultErrorHandler w s (some e)).map (fun x => x.body) =
        some (w.body ++ encodeErrBody s txt) ∧
      (DefaultErrorHandler w s (some e)).map resultStatus = some s) := by
  refine ⟨⟨?_, ?_⟩, ⟨?_, ?_⟩, ?_, ?_⟩ <;>
    simp [OK, OKWithData, DefaultErrorHandler, writeHeader, headerSet, writeBody,
      resultStatus, hw, hd, he]

/-- Claim C6 witness: fresh recorder, status 201, a small data map, and a
basic error. -/
theorem envelope_bodies_witness :
    ((OK newRecorder 201 "some msg").1.body = "" ++ encodeOKBody 201 "some msg" ∧
      resultStatus (OK newRecorder 201 "some msg").1 = 201) ∧
    ((OKWithData newRecorder 201 "some msg" [("age", .vint 23)]).1.body =
        "" ++ encodeOKDataBody 201 "some msg" "\x7b\"age\":23\x7d" ∧
      resultStatus (OKWithData newRecorder 201 "some msg" [("age", .vint 23)]).1 = 201) ∧
    ((DefaultErrorHandler newRecorder 201 (some (.base 1 "boom"))).map (fun x => x.body) =
        some ("" ++ encodeErrBody 201 "boom") ∧
      (DefaultErrorHandler newRecorder 201 (some (.base 1 "boom"))).map resultStatus =
        some 201) :=
  envelope_bodies newRecorder 201 "some msg" "boom" "\x7b\"age\":23\x7d"
    [("age", .vint 23)] (.base 1 "boom") rfl rfl rfl

/-- Claim C9: `OK` and `OKWithData` return nil on every input, including
a data map that `encoding/json` cannot marshal (the serialization error
is discarded). -/
theorem writers_always_nil :
    (∀ (w : ResponseWriter) (s : Int) (m : String), (OK w s m).2 = none) ∧
    (∀ (w : ResponseWriter) (s : Int) (m : String) (d : List (String × GoValue)),
      (OKWithData w s m d).2 = none) ∧
    marshalValue (.vmap [("ch", .unsupported)]) = none := by
  refine ⟨fun _ _ _ => rfl, fun w s m d => ?_, rfl⟩
  cases hd : marshalValue (.vmap d) <;> simp [OKWithData, hd]

end Httpwr
